import Mathlib

/-!
# Verification of the Xcode-Update link-reconciliation logic

A shallow embedding of `src/xcode-update.py` (a wrapper around the external
`xcodes` version manager).  External effects are made explicit:

* the output of `xcodes list` is modelled by `ListingResult` — either a
  timeout, a failed call (`check=True` raising), or the list of lines that
  `stdout.decode().split("\n")` produces (so the trailing empty line that a
  newline-terminated output yields is an ordinary element of the list);
* the output of `xcodes installed` is modelled by a list of `InstalledRecord`
  values, oldest first; the Python code classifies a line as beta by substring
  search for `'Beta'` / `'Release Candidate'` inside the line, which the model
  captures by the record's `kind` field (`lineIsBeta`), and it locates a line
  by substring search for a path or a version identifier, which the model
  captures by equality on the `path` / `identifier` fields;
* the two alias pointers (`Xcode-beta.app`, `Xcode.app`) and the set of paths
  present on disk are a `LinkState`; `Path.exists() or Path.is_symlink()` on a
  pointer is "the corresponding field is `some _`", and `resolve()` is the
  stored target path;
* Python exceptions (`AssertionError`, `subprocess.CalledProcessError`,
  `PermissionError`, `IndexError` from `[-2]`, dereferencing a `None` path)
  become `Except Err`;
* the collaborator calls performed by a run (`xcodes install`,
  `xcodes uninstall`, alias/symlink creation) are recorded as a list of `Ev`
  events.
-/

namespace XcodeUpdate

/-! ## Constants (src/xcode-update.py lines 16-25 and line 162) -/

/-- Directory to contain symlinks to the latest Xcode versions (line 17). -/
def XCODE_SYMLINK_DIRECTORY : String := "/Applications"

/-- Name for the latest Xcode release version (line 19). -/
def XCODE_RELEASE : String := "Xcode.app"

/-- Name for the latest Xcode prerelease version (line 21). -/
def XCODE_BETA : String := "Xcode-beta.app"

/-- String that Xcodes adds to a version to indicate it is installed (line 23). -/
def XCODES_INSTALLED_MAGIC_STRING : String := " (Installed)"

/-- The value `timeout=10` passed to the `xcodes list` subprocess call (line 162). -/
def XCODES_LIST_TIMEOUT_SECONDS : Nat := 10

/-! ## Character-level substring search, modelling Python `in` and `str.replace` -/

/-- Predicate `charsStartsWith s p`: the char list `s` starts with the pattern `p`. -/
def charsStartsWith : List Char → List Char → Bool
  | _, [] => true
  | [], _ :: _ => false
  | c :: cs, p :: ps => c == p && charsStartsWith cs ps

/-- Predicate `containsSub p s`: the pattern `p` occurs somewhere inside `s`
(Python's `p in s`). -/
def containsSub (pat : List Char) : List Char → Bool
  | [] => charsStartsWith [] pat
  | c :: cs => charsStartsWith (c :: cs) pat || containsSub pat cs

/-- Remove every occurrence of `pat` from the list, scanning left to right and
continuing after each removed occurrence (Python's `s.replace(pat, '')`).
The fuel argument is initialised to the list length, which always suffices. -/
def removeSubFuel (pat : List Char) : Nat → List Char → List Char
  | 0, s => s
  | _ + 1, [] => []
  | fuel + 1, c :: cs =>
    if 0 < pat.length && charsStartsWith (c :: cs) pat then
      removeSubFuel pat fuel ((c :: cs).drop pat.length)
    else c :: removeSubFuel pat fuel cs

/-- Python `pat in s` on strings. -/
def containsStr (s pat : String) : Bool := containsSub pat.toList s.toList

/-- Python `s.replace(pat, '')` on strings. -/
def removeStr (s pat : String) : String :=
  String.mk (removeSubFuel pat.toList s.toList.length s.toList)

/-! ## Data model -/

/-- Classification of a version: a line of `xcodes installed` output contains
one of `XCODES_BETA_MAGIC_STRINGS = ['Beta', 'Release Candidate']` (line 25)
exactly when the version is not a plain release. -/
inductive Kind
  | release
  | beta
  | releaseCandidate
deriving DecidableEq, Repr

/-- One line of `xcodes installed` output: `identifier + "\t" + path`, with the
classification text embedded in the line.  Oldest versions come first. -/
structure InstalledRecord where
  identifier : String
  path : String
  kind : Kind
deriving DecidableEq, Repr

/-- Evaluation of `any(magic_string in version for magic_string in XCODES_BETA_MAGIC_STRINGS)`
for the record's line (lines 179 and 190). -/
def lineIsBeta (r : InstalledRecord) : Bool := r.kind != Kind.release

/-- Failure conditions of the script.  Each constructor names the Python
exception it models. -/
inductive Err
  /-- An `AssertionError` after `subprocess.TimeoutExpired` (line 164), and the
  `subprocess.CalledProcessError` that `check=True` raises when the listing
  call errors: either way the `xcodes list` call failed fatally. -/
  | toolUnavailable
  /-- An `IndexError` from `all_versions.split("\n")[-2]` (line 165) when the
  output has fewer than two split parts: no version can be parsed. -/
  | malformedOutput
  /-- The `AssertionError` "isn't installed yet" (line 117). -/
  | targetNotInstalled
  /-- The `AssertionError` "doesn't seem to be a valid Xcode version" (line 181). -/
  | classificationLookupFailed
  /-- A `PermissionError` (line 70). -/
  | permissionDenied
  /-- Failure when `path_for_xcode_version` returned `None` and the caller dereferenced it
  (lines 118 and 142). -/
  | pathLookupFailed
  /-- The `AssertionError` raised when a symlink would overwrite its own source (line 251). -/
  | aliasDestinationIsSource
deriving DecidableEq, Repr

/-- Outcome of the `xcodes list` subprocess call (line 162).
`ok lines` carries `stdout.decode('utf-8').split("\n")`. -/
inductive ListingResult
  | timeout
  | callError
  | ok (lines : List String)
deriving DecidableEq, Repr

/-- Collaborator calls performed by a run. -/
inductive Ev
  | callInstall (version : String)
  | callUninstall (version : String)
  | callMakeAlias (source : String) (name : String)
deriving DecidableEq, Repr

/-- The two alias pointers and the set of paths present on disk.
A pointer field is `some t` exactly when `path.exists() or path.is_symlink()`
holds for it, and `t` is then `path.resolve()`. -/
structure LinkState where
  betaLink : Option String
  releaseLink : Option String
  disk : List String
deriving DecidableEq, Repr

/-- External state observed through the `xcodes` tool.  The run is the sole
writer (spec section 5), so the repeated `xcodes installed` subprocess calls
inside one run all observe the same `installed` list. -/
structure Env where
  listing : ListingResult
  installed : List InstalledRecord
deriving DecidableEq, Repr

/-- Environment plus link state: everything a run can observe or mutate. -/
structure World where
  env : Env
  st : LinkState
deriving DecidableEq, Repr

/-- Command-line arguments after `parse_args` (lines 27-36), with the
argparse defaults. -/
structure Args where
  interactive : Bool := true
  delete : Bool := true
  links_only : Bool := false
deriving DecidableEq, Repr

/-! ## Version source (lines 158-203) -/

/-- Function `latest_xcode_version` (lines 158-170): take line `[-2]` of the split
output (the last line is always empty for newline-terminated output), strip
the `' (Installed)'` magic string, and report whether it was present. -/
def latest_xcode_version (listing : ListingResult) : Except Err (String × Bool) :=
  match listing with
  | .timeout => .error .toolUnavailable
  | .callError => .error .toolUnavailable
  | .ok lines =>
    if h : 2 ≤ lines.length then
      let latestLine := lines.get ⟨lines.length - 2, by omega⟩
      if containsStr latestLine XCODES_INSTALLED_MAGIC_STRING then
        .ok (removeStr latestLine XCODES_INSTALLED_MAGIC_STRING, true)
      else
        .ok (latestLine, false)
    else
      .error .malformedOutput

/-- Function `is_release_version` (lines 173-181): scan the `xcodes installed` lines for
the first one containing the path and return the negation of its beta
classification.  The trailing empty line of the output contains `str(path)`
only when the path is the empty string, in which case the empty line is not
beta-classified and the function returns `True`; otherwise falling off the
loop raises `AssertionError`. -/
def is_release_version (installed : List InstalledRecord) (path : String) : Except Err Bool :=
  match installed.find? (fun r => r.path == path) with
  | some r => .ok (!lineIsBeta r)
  | none => if path.isEmpty then .ok true else .error .classificationLookupFailed

/-- Function `oldest_xcode_version` (lines 184-193): scan the lines oldest-first and
return the identifier (`split("\t")[0]`) of the first line that is
beta-classified or, with `include_releases`, of any first line.  The scan
includes the trailing empty line of the output, whose identifier is the empty
string; after the loop the Python code returns `None`. -/
def oldest_xcode_version (include_releases : Bool) : List InstalledRecord → Option String
  | [] => if include_releases then some "" else none
  | r :: rest =>
    if include_releases || lineIsBeta r then some r.identifier
    else oldest_xcode_version include_releases rest

/-- Function `path_for_xcode_version` (lines 196-203): path of the first line containing
the searched version, or `None`. -/
def path_for_xcode_version (installed : List InstalledRecord) (searched : String) : Option String :=
  (installed.find? (fun r => r.identifier == searched)).map (fun r => r.path)

/-- Python truthiness of `xcode_version_to_delete` in `delete_xcode` (line 97):
`None` and the empty string are both falsy. -/
def pyTruthy : Option String → Bool
  | none => false
  | some s => !s.isEmpty

/-! ## Permission check and alias creation (lines 63-70 and 206-253) -/

/-- The directory checked by `verify_permissions` (lines 66-68): the
`XCODES_DIRECTORY` environment variable when set and non-empty (Python's
`if not xcode_directory` treats the empty string like an unset variable),
otherwise `/Applications`. -/
def xcodes_directory (envVar : Option String) : String :=
  match envVar with
  | some d => if d.isEmpty then "/Applications" else d
  | none => "/Applications"

/-- Function `verify_permissions` (lines 63-70): `PermissionError` unless the invoking
user has read and write access to the directory.  `rwAccess` models
`os.access(d, os.R_OK | os.W_OK)`. -/
def verify_permissions (envVar : Option String) (rwAccess : String → Bool) : Except Err Unit :=
  if rwAccess (xcodes_directory envVar) then .ok () else .error .permissionDenied

/-- Destination of the symlink created by `make_alias` (line 249):
always inside the fixed `XCODE_SYMLINK_DIRECTORY`. -/
def symlinkDestination (name : String) : String :=
  XCODE_SYMLINK_DIRECTORY ++ "/" ++ name

/-- Function `make_alias` (lines 206-253), restricted to its effect on the two modelled
pointers: re-point the named link at `source`.  The `AssertionError` of
line 251 fires when the source is the symlink destination itself.  The Finder
alias written next to `source` does not affect the pointer state. -/
def make_alias (st : LinkState) (source : String) (name : String) : Except Err LinkState :=
  if source == symlinkDestination name then .error .aliasDestinationIsSource
  else if name == XCODE_BETA then .ok { st with betaLink := some source }
  else if name == XCODE_RELEASE then .ok { st with releaseLink := some source }
  else .ok st

/-! ## Install and delete phases (lines 73-100) -/

/-- Result of the install phase: the Python code prints "Nothing to do." and
calls `exit()` when the latest version is already installed. -/
inductive InstallResult
  | nothingToDo
  | willInstall (version : String)
deriving DecidableEq, Repr

/-- Function `install_latest_xcode` (lines 73-83).  The `xcodes install` subprocess call
happens only when the latest version is not installed and this is not a dry
run. -/
def install_latest_xcode (dry_run : Bool) (env : Env) : Except Err (InstallResult × List Ev) :=
  match latest_xcode_version env.listing with
  | .error e => .error e
  | .ok (lv, isInstalled) =>
    if isInstalled then .ok (.nothingToDo, [])
    else if dry_run then .ok (.willInstall lv, [])
    else .ok (.willInstall lv, [Ev.callInstall lv])

/-- Function `delete_xcode` (lines 86-100): no-op when the beta pointer is absent;
otherwise classify the resolved beta target, select the oldest eligible
version, and uninstall it only when the selection is truthy and this is not a
dry run.  Returns the selection together with the emitted collaborator
calls. -/
def delete_xcode (dry_run : Bool) (env : Env) (st : LinkState) :
    Except Err (Option String × List Ev) :=
  match st.betaLink with
  | none => .ok (none, [])
  | some current_beta =>
    match is_release_version env.installed current_beta with
    | .error e => .error e
    | .ok should_delete_release =>
      let sel := oldest_xcode_version should_delete_release env.installed
      if pyTruthy sel then
        if dry_run then .ok (sel, [])
        else .ok (sel, [Ev.callUninstall (sel.getD "")])
      else .ok (sel, [])

/-! ## Link reconciliation (`update_links`, lines 103-143) -/

/-- Beta stage of `update_links` (lines 106-119): on a committed run the latest
version must be installed (`AssertionError` otherwise), its path is looked up
(dereferencing a `None` lookup crashes), and the beta pointer is re-pointed at
it.  A dry run only prints. -/
def beta_stage (dry_run : Bool) (env : Env) (st : LinkState)
    (latest_version : String) (latest_is_installed : Bool) :
    Except Err (LinkState × List Ev) :=
  if dry_run then .ok (st, [])
  else if !latest_is_installed then .error .targetNotInstalled
  else
    match path_for_xcode_version env.installed latest_version with
    | none => .error .pathLookupFailed
    | some p =>
      match make_alias st p XCODE_BETA with
      | .error e => .error e
      | .ok st1 => .ok (st1, [Ev.callMakeAlias p XCODE_BETA])

/-- The three-way release decision of `update_links` (lines 121-143). -/
inductive RelDecision
  /-- Leave the release pointer untouched (the early `return` of line 130, or
  a prerelease outgoing beta). -/
  | keep
  /-- Re-point the release pointer at the given resolved prior beta path. -/
  | toPath (p : String)
  /-- Re-point the release pointer at the path of the latest version
  (looked up at commit time, line 142). -/
  | toLatest
deriving DecidableEq, Repr

/-- Release decision of `update_links` (lines 125-143), evaluated on the state
after the beta stage with `current_beta` resolved before it:
* release pointer present: early return when the prior beta is absent or its
  target is gone from disk; otherwise re-point to the prior beta exactly when
  `is_release_version` classifies it as a release (which may also raise);
* release pointer absent: point at the prior beta when it exists on disk,
  else at the latest version. -/
def release_decision (env : Env) (st1 : LinkState) (current_beta : Option String) :
    Except Err RelDecision :=
  match st1.releaseLink with
  | some _ =>
    match current_beta with
    | none => .ok .keep
    | some cb =>
      if !(st1.disk.contains cb) then .ok .keep
      else
        match is_release_version env.installed cb with
        | .error e => .error e
        | .ok true => .ok (.toPath cb)
        | .ok false => .ok .keep
  | none =>
    match current_beta with
    | some cb => if st1.disk.contains cb then .ok (.toPath cb) else .ok .toLatest
    | none => .ok .toLatest

/-- Commit the release decision (the `make_alias` calls of lines 134, 138 and
141-143); a dry run only prints. -/
def apply_release (dry_run : Bool) (env : Env) (latest_version : String)
    (st1 : LinkState) (evs1 : List Ev) : RelDecision → Except Err (LinkState × List Ev)
  | .keep => .ok (st1, evs1)
  | .toPath cb =>
    if dry_run then .ok (st1, evs1)
    else
      match make_alias st1 cb XCODE_RELEASE with
      | .error e => .error e
      | .ok st2 => .ok (st2, evs1 ++ [Ev.callMakeAlias cb XCODE_RELEASE])
  | .toLatest =>
    if dry_run then .ok (st1, evs1)
    else
      match path_for_xcode_version env.installed latest_version with
      | none => .error .pathLookupFailed
      | some lp =>
        match make_alias st1 lp XCODE_RELEASE with
        | .error e => .error e
        | .ok st2 => .ok (st2, evs1 ++ [Ev.callMakeAlias lp XCODE_RELEASE])

/-- Function `update_links` (lines 103-143): query the latest version, capture the prior
beta target, run the beta stage, then decide and apply the release update. -/
def update_links (dry_run : Bool) (env : Env) (st : LinkState) :
    Except Err (LinkState × List Ev) :=
  match latest_xcode_version env.listing with
  | .error e => .error e
  | .ok (latest_version, latest_is_installed) =>
    match beta_stage dry_run env st latest_version latest_is_installed with
    | .error e => .error e
    | .ok (st1, evs1) =>
      match release_decision env st1 st.betaLink with
      | .error e => .error e
      | .ok d => apply_release dry_run env latest_version st1 evs1 d

/-! ## The top-level run (`main`, lines 39-60) -/

/-- How the process ends: `main` returning (exit code 0), `exit()` from inside
a phase or from the confirmation prompt (also exit code 0), or an uncaught
exception (non-zero exit code). -/
inductive Outcome
  | finished
  | exitedZero
  | failed (e : Err)
deriving DecidableEq, Repr

/-- How a single phase ends: proceed to the next phase, terminate the whole
process via `exit()`, or raise. -/
inductive StepRes
  | proceed
  | exitZero
  | fail (e : Err)
deriving DecidableEq, Repr

/-- One invocation of `install_latest_xcode` as a phase of `main`. -/
def installStep (dry_run : Bool) (w : World) : StepRes × List Ev :=
  match install_latest_xcode dry_run w.env with
  | .error e => (.fail e, [])
  | .ok (.nothingToDo, evs) => (.exitZero, evs)
  | .ok (.willInstall _, evs) => (.proceed, evs)

/-- One invocation of `delete_xcode` as a phase of `main`. -/
def deleteStep (dry_run : Bool) (w : World) : StepRes × List Ev :=
  match delete_xcode dry_run w.env w.st with
  | .error e => (.fail e, [])
  | .ok (_, evs) => (.proceed, evs)

/-- One invocation of `update_links` as a phase of `main`; also returns the
link state it produced. -/
def relinkStep (dry_run : Bool) (w : World) : StepRes × List Ev × LinkState :=
  match update_links dry_run w.env w.st with
  | .error e => (.fail e, [], w.st)
  | .ok (st1, evs) => (.proceed, evs, st1)

/-- The interactive preview pass of `main` (lines 49-54): each enabled phase
runs with `dry_run=True` against the same world (dry runs have no effects). -/
def previewSteps (args : Args) (w : World) : List (StepRes × List Ev) :=
  (if args.interactive && !args.links_only then [installStep true w] else []) ++
  (if args.interactive && args.delete && !args.links_only then [deleteStep true w] else []) ++
  (if args.interactive then [((relinkStep true w).1, (relinkStep true w).2.1)] else [])

/-- Run phases in order until one terminates the process, accumulating the
emitted events. -/
def firstHalt : List (StepRes × List Ev) → List Ev × Option Outcome
  | [] => ([], none)
  | (res, evs) :: rest =>
    match res with
    | .proceed =>
      let (evs2, o) := firstHalt rest
      (evs ++ evs2, o)
    | .exitZero => (evs, some .exitedZero)
    | .fail e => (evs, some (.failed e))

/-- Apply the external effect of an emitted event to the world: the
`xcodes install` / `xcodes uninstall` subprocess calls change the external
state in ways the script does not control, so they are parameters.  Alias
creation is already reflected in the link state returned by `update_links`. -/
def applyEv (instE uninstE : String → World → World) (w : World) : Ev → World
  | .callInstall v => instE v w
  | .callUninstall v => uninstE v w
  | .callMakeAlias _ _ => w

/-- The committed Install, Delete and Relink phases of `main` (lines 56-60),
in order, threading the external effects of install/uninstall calls through
the world. -/
def commitPhases (args : Args) (w0 : World)
    (instE uninstE : String → World → World) : List Ev × Outcome × LinkState :=
  match (if args.links_only then (StepRes.proceed, []) else installStep false w0) with
  | (.exitZero, e1) => (e1, .exitedZero, w0.st)
  | (.fail e, e1) => (e1, .failed e, w0.st)
  | (.proceed, e1) =>
    let w1 := e1.foldl (applyEv instE uninstE) w0
    match (if args.delete && !args.links_only then deleteStep false w1 else (.proceed, [])) with
    | (.exitZero, e2) => (e1 ++ e2, .exitedZero, w1.st)
    | (.fail e, e2) => (e1 ++ e2, .failed e, w1.st)
    | (.proceed, e2) =>
      let w2 := e2.foldl (applyEv instE uninstE) w1
      match relinkStep false w2 with
      | (.fail e, e3, _) => (e1 ++ e2 ++ e3, .failed e, w2.st)
      | (.proceed, e3, st3) => (e1 ++ e2 ++ e3, .finished, st3)
      | (.exitZero, e3, st3) => (e1 ++ e2 ++ e3, .exitedZero, st3)

/-- Function `main` after the pre-flight checks (lines 49-60): the interactive preview
with its confirmation prompt (`confirm = false` models answering "n", which
calls `exit()`), then the committed phases.  Returns the emitted collaborator
calls, the outcome, and the final link state. -/
def runMain (args : Args) (confirm : Bool) (w0 : World)
    (instE uninstE : String → World → World) : List Ev × Outcome × LinkState :=
  match firstHalt (previewSteps args w0) with
  | (pEvs, some o) => (pEvs, o, w0.st)
  | (pEvs, none) =>
    if args.interactive && !confirm then (pEvs, .exitedZero, w0.st)
    else
      match commitPhases args w0 instE uninstE with
      | (cEvs, o, st1) => (pEvs ++ cEvs, o, st1)

/-- Function `main` including the permission check (line 48): a failed check aborts
before any phase runs. -/
def mainRun (envVar : Option String) (rwAccess : String → Bool) (args : Args)
    (confirm : Bool) (w : World) (instE uninstE : String → World → World) :
    List Ev × Outcome × LinkState :=
  match verify_permissions envVar rwAccess with
  | .error e => ([], .failed e, w.st)
  | .ok _ => runMain args confirm w instE uninstE

/-- The oldest-first ordering reported by the version source: the version
identifiers of the `xcodes list` output lines, with the trailing empty line
dropped and the `' (Installed)'` marker stripped exactly as
`latest_xcode_version` strips it.  `latest_xcode_version` returns the last
element of this list. -/
def listingOrder (lines : List String) : List String :=
  lines.dropLast.map
    (fun l => if containsStr l XCODES_INSTALLED_MAGIC_STRING
              then removeStr l XCODES_INSTALLED_MAGIC_STRING else l)

end XcodeUpdate

namespace XcodeUpdate

/-! ## Helper lemmas -/

theorem oldest_true_cons (r : InstalledRecord) (rest : List InstalledRecord) :
    oldest_xcode_version true (r :: rest) = some r.identifier := by
  simp [oldest_xcode_version]

theorem oldest_false_eq_find (l : List InstalledRecord) :
    oldest_xcode_version false l = (l.find? lineIsBeta).map (fun r => r.identifier) := by
  induction l with
  | nil => rfl
  | cons r rest ih =>
    by_cases h : lineIsBeta r = true
    · simp [oldest_xcode_version, List.find?_cons_of_pos, h]
    · rw [Bool.not_eq_true] at h
      simp [oldest_xcode_version, List.find?_cons_of_neg, h, ih]

theorem beta_stage_false_ok {env : Env} {st : LinkState} {lv : String} {inst : Bool}
    {st1 : LinkState} {evs1 : List Ev}
    (h : beta_stage false env st lv inst = .ok (st1, evs1)) :
    inst = true ∧ ∃ lp, path_for_xcode_version env.installed lv = some lp ∧
      (lp == symlinkDestination XCODE_BETA) = false ∧
      st1 = { st with betaLink := some lp } ∧
      evs1 = [Ev.callMakeAlias lp XCODE_BETA] := by
  cases inst with
  | false => simp [beta_stage] at h
  | true =>
    refine ⟨rfl, ?_⟩
    simp only [beta_stage, Bool.not_true, Bool.false_eq_true, if_false, ite_false] at h
    cases hp : path_for_xcode_version env.installed lv with
    | none => rw [hp] at h; simp at h
    | some p =>
      rw [hp] at h
      cases hq : p == symlinkDestination XCODE_BETA with
      | true => simp [make_alias, hq] at h
      | false =>
        simp only [make_alias, hq, Bool.false_eq_true, if_false, ite_false,
          beq_self_eq_true, if_true, ite_true] at h
        cases h
        exact ⟨p, rfl, hq, rfl, rfl⟩

theorem release_decision_cases {env : Env} {st1 : LinkState} {cb : Option String}
    {d : RelDecision} (h : release_decision env st1 cb = .ok d) :
    d = .keep ∨ (∃ p, cb = some p ∧ d = .toPath p) ∨ d = .toLatest := by
  unfold release_decision at h
  cases hr : st1.releaseLink with
  | some rt =>
    rw [hr] at h
    cases cb with
    | none => cases h; exact Or.inl rfl
    | some p =>
      by_cases hd : st1.disk.contains p = true
      · simp only [hd, Bool.not_true, Bool.false_eq_true, if_false, ite_false] at h
        cases hcl : is_release_version env.installed p with
        | error e => rw [hcl] at h; simp at h
        | ok b =>
          rw [hcl] at h
          cases b with
          | true => cases h; exact Or.inr (Or.inl ⟨p, rfl, rfl⟩)
          | false => cases h; exact Or.inl rfl
      · rw [Bool.not_eq_true] at hd
        simp only [hd, Bool.not_false, if_true, ite_true] at h
        cases h; exact Or.inl rfl
  | none =>
    rw [hr] at h
    cases cb with
    | none => cases h; exact Or.inr (Or.inr rfl)
    | some p =>
      by_cases hd : st1.disk.contains p = true
      · simp only [hd, if_true, ite_true] at h
        cases h; exact Or.inr (Or.inl ⟨p, rfl, rfl⟩)
      · rw [Bool.not_eq_true] at hd
        simp only [hd, Bool.false_eq_true, if_false, ite_false] at h
        cases h; exact Or.inr (Or.inr rfl)

theorem apply_release_false_ok {env : Env} {lv : String} {st1 : LinkState}
    {evs1 : List Ev} {d : RelDecision} {st2 : LinkState} {evs2 : List Ev}
    (h : apply_release false env lv st1 evs1 d = .ok (st2, evs2)) :
    (d = .keep ∧ st2 = st1 ∧ evs2 = evs1) ∨
    (∃ cb, d = .toPath cb ∧ st2 = { st1 with releaseLink := some cb } ∧
       evs2 = evs1 ++ [Ev.callMakeAlias cb XCODE_RELEASE]) ∨
    (∃ lp, d = .toLatest ∧ path_for_xcode_version env.installed lv = some lp ∧
       st2 = { st1 with releaseLink := some lp } ∧
       evs2 = evs1 ++ [Ev.callMakeAlias lp XCODE_RELEASE]) := by
  cases d with
  | keep => cases h; exact Or.inl ⟨rfl, rfl, rfl⟩
  | toPath cb =>
    simp only [apply_release, Bool.false_eq_true, if_false, ite_false] at h
    cases hq : cb == symlinkDestination XCODE_RELEASE with
    | true => simp [make_alias, hq] at h
    | false =>
      simp only [make_alias, hq, Bool.false_eq_true, if_false, ite_false] at h
      rw [if_neg (by decide), if_pos (by rfl)] at h
      cases h
      exact Or.inr (Or.inl ⟨cb, rfl, rfl, rfl⟩)
  | toLatest =>
    simp only [apply_release, Bool.false_eq_true, if_false, ite_false] at h
    cases hp : path_for_xcode_version env.installed lv with
    | none => rw [hp] at h; simp at h
    | some lp =>
      rw [hp] at h
      cases hq : lp == symlinkDestination XCODE_RELEASE with
      | true => simp [make_alias, hq] at h
      | false =>
        simp only [make_alias, hq, Bool.false_eq_true, if_false, ite_false] at h
        rw [if_neg (by decide), if_pos (by rfl)] at h
        cases h
        exact Or.inr (Or.inr ⟨lp, rfl, rfl, rfl, rfl⟩)

end XcodeUpdate

namespace XcodeUpdate

theorem update_links_ok_shape {env : Env} {st st' : LinkState} {evs : List Ev}
    (h : update_links false env st = .ok (st', evs)) :
    ∃ lv lp, latest_xcode_version env.listing = .ok (lv, true) ∧
      path_for_xcode_version env.installed lv = some lp ∧
      st'.betaLink = some lp ∧ st'.disk = st.disk ∧
      (st'.releaseLink = st.releaseLink ∨
       (∃ cb, st.betaLink = some cb ∧ st'.releaseLink = some cb) ∨
       st'.releaseLink = some lp) := by
  unfold update_links at h
  cases hL : latest_xcode_version env.listing with
  | error e => rw [hL] at h; simp at h
  | ok p =>
    rw [hL] at h
    obtain ⟨lv, inst⟩ := p
    dsimp only at h
    cases hB : beta_stage false env st lv inst with
    | error e => rw [hB] at h; simp at h
    | ok q =>
      rw [hB] at h
      obtain ⟨st1, evs1⟩ := q
      dsimp only at h
      obtain ⟨hinst, lp, hlp, hne, hst1, hevs1⟩ := beta_stage_false_ok hB
      subst hinst
      cases hD : release_decision env st1 st.betaLink with
      | error e => rw [hD] at h; simp at h
      | ok d =>
        rw [hD] at h
        refine ⟨lv, lp, rfl, hlp, ?_⟩
        rcases apply_release_false_ok h with ⟨hd, hst, hevs⟩ | ⟨cb, hd, hst, hevs⟩ |
          ⟨lp2, hd, hlp2, hst, hevs⟩
        · subst hst; subst hst1
          exact ⟨rfl, rfl, Or.inl rfl⟩
        · subst hd
          rcases release_decision_cases hD with hk | ⟨p, hcb, hp⟩ | hk
        
          · exact absurd hk (by simp)
          · injection hp with hpe
            subst hpe
            subst hst; subst hst1
            exact ⟨rfl, rfl, Or.inr (Or.inl ⟨_, hcb, rfl⟩)⟩
          · exact absurd hk (by simp)
        · subst hst; subst hst1
          rw [hlp] at hlp2
          cases hlp2
          exact ⟨rfl, rfl, Or.inr (Or.inr rfl)⟩

theorem beta_stage_dry (env : Env) (st : LinkState) (lv : String) (inst : Bool) :
    beta_stage true env st lv inst = .ok (st, []) := rfl

theorem apply_release_dry (env : Env) (lv : String) (st1 : LinkState) (evs1 : List Ev)
    (d : RelDecision) : apply_release true env lv st1 evs1 d = .ok (st1, evs1) := by
  cases d <;> rfl

theorem update_links_dry_ok {env : Env} {st st' : LinkState} {evs : List Ev}
    (h : update_links true env st = .ok (st', evs)) : st' = st ∧ evs = [] := by
  unfold update_links at h
  cases hL : latest_xcode_version env.listing with
  | error e => rw [hL] at h; simp at h
  | ok p =>
    rw [hL] at h
    obtain ⟨lv, inst⟩ := p
    dsimp only at h
    rw [beta_stage_dry] at h
    dsimp only at h
    cases hD : release_decision env st st.betaLink with
    | error e => rw [hD] at h; simp at h
    | ok d =>
      rw [hD] at h
      dsimp only at h
      rw [apply_release_dry] at h
      cases h
      exact ⟨rfl, rfl⟩

theorem update_links_false_events {env : Env} {st st' : LinkState} {evs : List Ev}
    (h : update_links false env st = .ok (st', evs)) :
    ∀ ev ∈ evs, ∃ s n, ev = Ev.callMakeAlias s n := by
  unfold update_links at h
  cases hL : latest_xcode_version env.listing with
  | error e => rw [hL] at h; simp at h
  | ok p =>
    rw [hL] at h
    obtain ⟨lv, inst⟩ := p
    dsimp only at h
    cases hB : beta_stage false env st lv inst with
    | error e => rw [hB] at h; simp at h
    | ok q =>
      rw [hB] at h
      obtain ⟨st1, evs1⟩ := q
      dsimp only at h
      obtain ⟨hinst, lp, hlp, hne, hst1, hevs1⟩ := beta_stage_false_ok hB
      cases hD : release_decision env st1 st.betaLink with
      | error e => rw [hD] at h; simp at h
      | ok d =>
        rw [hD] at h
        rcases apply_release_false_ok h with ⟨hd, hst, hevs⟩ | ⟨cb, hd, hst, hevs⟩ |
          ⟨lp2, hd, hlp2, hst, hevs⟩ <;> subst hevs <;> subst hevs1 <;>
          intro ev hev <;> simp at hev
        · exact ⟨lp, XCODE_BETA, hev⟩
        · rcases hev with hev | hev
          · exact ⟨lp, XCODE_BETA, hev⟩
          · exact ⟨cb, XCODE_RELEASE, hev⟩
        · rcases hev with hev | hev
          · exact ⟨lp, XCODE_BETA, hev⟩
          · exact ⟨lp2, XCODE_RELEASE, hev⟩

end XcodeUpdate

namespace XcodeUpdate

theorem beta_stage_false_eval {env : Env} {st : LinkState} {lv lp : String}
    (hpath : path_for_xcode_version env.installed lv = some lp)
    (hlpb : (lp == symlinkDestination XCODE_BETA) = false) :
    beta_stage false env st lv true =
      .ok ({ st with betaLink := some lp }, [Ev.callMakeAlias lp XCODE_BETA]) := by
  unfold beta_stage
  simp only [Bool.not_true, Bool.false_eq_true, if_false, ite_false]
  rw [hpath]
  dsimp only
  unfold make_alias
  rw [hlpb]
  simp

theorem release_decision_keep_nobeta {env : Env} {st1 : LinkState} {rt : String}
    (hrl : st1.releaseLink = some rt) :
    release_decision env st1 none = .ok .keep := by
  unfold release_decision
  rw [hrl]

theorem release_decision_keep_gone {env : Env} {st1 : LinkState} {cb rt : String}
    (hrl : st1.releaseLink = some rt) (hdisk : st1.disk.contains cb = false) :
    release_decision env st1 (some cb) = .ok .keep := by
  unfold release_decision
  rw [hrl]
  dsimp only
  rw [hdisk]
  rfl

theorem release_decision_repoint {env : Env} {st1 : LinkState} {cb rt : String}
    (hrl : st1.releaseLink = some rt) (hdisk : st1.disk.contains cb = true)
    (hcls : is_release_version env.installed cb = .ok true) :
    release_decision env st1 (some cb) = .ok (.toPath cb) := by
  unfold release_decision
  rw [hrl]
  dsimp only
  rw [hdisk, hcls]
  rfl

theorem release_decision_untouched {env : Env} {st1 : LinkState} {cb rt : String}
    (hrl : st1.releaseLink = some rt) (hdisk : st1.disk.contains cb = true)
    (hcls : is_release_version env.installed cb = .ok false) :
    release_decision env st1 (some cb) = .ok .keep := by
  unfold release_decision
  rw [hrl]
  dsimp only
  rw [hdisk, hcls]
  rfl

theorem release_decision_fallback {env : Env} {st1 : LinkState} {cb : String}
    (hrl : st1.releaseLink = none) (hdisk : st1.disk.contains cb = true) :
    release_decision env st1 (some cb) = .ok (.toPath cb) := by
  unfold release_decision
  rw [hrl]
  dsimp only
  rw [hdisk]
  rfl

theorem release_decision_first_run {env : Env} {st1 : LinkState}
    (hrl : st1.releaseLink = none) :
    release_decision env st1 none = .ok .toLatest := by
  unfold release_decision
  rw [hrl]

theorem release_decision_fallback_gone {env : Env} {st1 : LinkState} {cb : String}
    (hrl : st1.releaseLink = none) (hdisk : st1.disk.contains cb = false) :
    release_decision env st1 (some cb) = .ok .toLatest := by
  unfold release_decision
  rw [hrl]
  dsimp only
  rw [hdisk]
  rfl

theorem apply_release_toPath_eval {env : Env} {lv : String} {st1 : LinkState}
    {evs1 : List Ev} {cb : String}
    (hne : (cb == symlinkDestination XCODE_RELEASE) = false) :
    apply_release false env lv st1 evs1 (.toPath cb) =
      .ok ({ st1 with releaseLink := some cb },
           evs1 ++ [Ev.callMakeAlias cb XCODE_RELEASE]) := by
  unfold apply_release
  simp only [Bool.false_eq_true, if_false, ite_false]
  unfold make_alias
  rw [hne]
  simp only [Bool.false_eq_true, if_false, ite_false]
  rw [if_neg (by decide), if_pos (by decide)]

theorem apply_release_toLatest_eval {env : Env} {lv : String} {st1 : LinkState}
    {evs1 : List Ev} {lp : String}
    (hpath : path_for_xcode_version env.installed lv = some lp)
    (hne : (lp == symlinkDestination XCODE_RELEASE) = false) :
    apply_release false env lv st1 evs1 .toLatest =
      .ok ({ st1 with releaseLink := some lp },
           evs1 ++ [Ev.callMakeAlias lp XCODE_RELEASE]) := by
  unfold apply_release
  simp only [Bool.false_eq_true, if_false, ite_false]
  rw [hpath]
  dsimp only
  unfold make_alias
  rw [hne]
  simp only [Bool.false_eq_true, if_false, ite_false]
  rw [if_neg (by decide), if_pos (by decide)]

end XcodeUpdate

namespace XcodeUpdate

theorem delete_guard_aux {env : Env} {st : LinkState} {sel : Option String} {evs : List Ev}
    (h : delete_xcode false env st = .ok (sel, evs)) (hsel : pyTruthy sel = false) :
    evs = [] := by
  unfold delete_xcode at h
  cases hb : st.betaLink with
  | none => rw [hb] at h; cases h; rfl
  | some cb =>
    rw [hb] at h
    dsimp only at h
    cases hcl : is_release_version env.installed cb with
    | error e => rw [hcl] at h; simp at h
    | ok b =>
      rw [hcl] at h
      dsimp only at h
      cases hs : pyTruthy (oldest_xcode_version b env.installed) with
      | true =>
        rw [if_pos hs] at h
        cases h
        rw [hs] at hsel
        exact absurd hsel (by simp)
      | false =>
        rw [if_neg (by rw [hs]; exact Bool.false_ne_true)] at h
        cases h
        rfl

/-- Sample installed records and environments used by the concrete witnesses. -/
def recA : InstalledRecord := ⟨"15.0", "/Applications/Xcode-15.0.app", Kind.release⟩

def recB : InstalledRecord := ⟨"16.0 Beta 2", "/Applications/Xcode-16.0-beta.app", Kind.beta⟩

/-- Claim C1: For every installed-version listing and every resolved Beta pointer
target: when the Beta target is release-classified, the delete operation
(`delete_xcode` via `oldest_xcode_version` with `include_releases`) selects the
single oldest installed record regardless of classification; when the Beta
target is prerelease-classified, it selects the oldest installed record whose
kind is Beta or ReleaseCandidate (the first record passing the beta filter),
`oldest_xcode_version` returns `None` when no record passes that filter, and a
selection of `None` makes `delete_xcode` a no-op (no uninstall call). -/
theorem delete_selects_oldest
    (listing : ListingResult) (installed : List InstalledRecord)
    (rl : Option String) (disk : List String) (cb : String) (r : InstalledRecord)
    (hfind : installed.find? (fun x => x.path == cb) = some r) :
    (r.kind = Kind.release →
       ∃ hd tl, installed = hd :: tl ∧
         Except.map (fun x => x.1)
           (delete_xcode false ⟨listing, installed⟩ ⟨some cb, rl, disk⟩) =
           .ok (some hd.identifier)) ∧
    (r.kind ≠ Kind.release →
       Except.map (fun x => x.1)
         (delete_xcode false ⟨listing, installed⟩ ⟨some cb, rl, disk⟩) =
         .ok ((installed.find? lineIsBeta).map (fun b => b.identifier))) ∧
    (∀ l : List InstalledRecord, l.find? lineIsBeta = none →
       oldest_xcode_version false l = none) ∧
    (∀ (env : Env) (st : LinkState) (evs : List Ev),
       delete_xcode false env st = .ok (none, evs) → evs = []) := by
  have hrelv : ∀ b : Bool, lineIsBeta r = b →
      is_release_version installed cb = .ok (!b) := by
    intro b hb
    unfold is_release_version
    rw [hfind]
    dsimp only
    rw [hb]
  refine ⟨?_, ?_, ?_, ?_⟩
  · intro hk
    cases installed with
    | nil => simp [List.find?] at hfind
    | cons hd tl =>
      refine ⟨hd, tl, rfl, ?_⟩
      have h1 : is_release_version (hd :: tl) cb = .ok true := by
        have := hrelv false (by simp [lineIsBeta, hk])
        simpa using this
      unfold delete_xcode
      dsimp only
      rw [h1]
      dsimp only
      rw [oldest_true_cons]
      cases hs : pyTruthy (some hd.identifier) <;> simp [hs, Except.map]
  · intro hk
    have h1 : is_release_version installed cb = .ok false := by
      have hb : lineIsBeta r = true := by
        simp only [lineIsBeta, bne_iff_ne, ne_eq, decide_eq_true_eq]
        exact hk
      have := hrelv true hb
      simpa using this
    unfold delete_xcode
    dsimp only
    rw [h1]
    dsimp only
    rw [oldest_false_eq_find]
    cases hs : pyTruthy ((installed.find? lineIsBeta).map (fun b => b.identifier)) <;>
      simp [hs, Except.map]
  · intro l hl
    rw [oldest_false_eq_find, hl]
    rfl
  · intro env st evs h
    exact delete_guard_aux h rfl

theorem delete_selects_oldest_witness :
    ∃ hd tl, ([recA, recB] : List InstalledRecord) = hd :: tl ∧
      Except.map (fun x => x.1)
        (delete_xcode false ⟨ListingResult.ok ["x", ""], [recA, recB]⟩
          ⟨some "/Applications/Xcode-15.0.app", none, []⟩) = .ok (some hd.identifier) :=
  (delete_selects_oldest (ListingResult.ok ["x", ""]) [recA, recB] none []
      "/Applications/Xcode-15.0.app" recA rfl).1 rfl

/-- Claim C10: `delete_xcode` never invokes the uninstall collaborator when no
deletion candidate exists: `oldest_xcode_version` returns `None` when no
installed record passes the eligibility filter, and returns the empty string
when only the listing's trailing empty record matches (empty installed list
with `include_releases`); both values are falsy, and whenever the selection is
falsy `delete_xcode` emits no uninstall call. -/
theorem delete_truthiness_guard (l : List InstalledRecord)
    (hnone : l.find? lineIsBeta = none) :
    oldest_xcode_version false l = none ∧
    oldest_xcode_version true [] = some "" ∧
    pyTruthy none = false ∧
    pyTruthy (some "") = false ∧
    (∀ (env : Env) (st : LinkState) (sel : Option String) (evs : List Ev),
        delete_xcode false env st = .ok (sel, evs) → pyTruthy sel = false →
        ∀ v, Ev.callUninstall v ∉ evs) := by
  refine ⟨?_, rfl, rfl, rfl, ?_⟩
  · rw [oldest_false_eq_find, hnone]
    rfl
  · intro env st sel evs h hsel v
    rw [delete_guard_aux h hsel]
    simp

theorem delete_truthiness_guard_witness :
    oldest_xcode_version false [recA] = none ∧ pyTruthy (some "") = false :=
  ⟨(delete_truthiness_guard [recA] rfl).1, (delete_truthiness_guard [recA] rfl).2.2.2.1⟩

/-- Claim C5: If a Release pointer exists but the prior Beta target no longer
exists on disk (it was the deletion target just removed), `update_links`
skips the Release update entirely: the committed run only re-points the Beta
pointer and the Release pointer keeps its previous target. -/
theorem release_skipped_when_prior_beta_gone
    (env : Env) (disk : List String) (lv lp rt cb : String)
    (hlst : latest_xcode_version env.listing = .ok (lv, true))
    (hpath : path_for_xcode_version env.installed lv = some lp)
    (hlpb : (lp == symlinkDestination XCODE_BETA) = false)
    (hdisk : disk.contains cb = false) :
    update_links false env ⟨some cb, some rt, disk⟩ =
      .ok (⟨some lp, some rt, disk⟩, [Ev.callMakeAlias lp XCODE_BETA]) := by
  unfold update_links
  rw [hlst]
  dsimp only
  rw [beta_stage_false_eval hpath hlpb]
  dsimp only
  rw [release_decision_keep_gone rfl hdisk]
  rfl

theorem release_skipped_when_prior_beta_gone_witness :
    update_links false ⟨ListingResult.ok ["15.0", "16.0 Beta 2 (Installed)", ""], [recA, recB]⟩
      ⟨some "/Applications/Xcode-14.3-beta.app", some "/Applications/Xcode-15.0.app",
       ["/Applications/Xcode-15.0.app", "/Applications/Xcode-16.0-beta.app"]⟩ =
    .ok (⟨some "/Applications/Xcode-16.0-beta.app", some "/Applications/Xcode-15.0.app",
          ["/Applications/Xcode-15.0.app", "/Applications/Xcode-16.0-beta.app"]⟩,
         [Ev.callMakeAlias "/Applications/Xcode-16.0-beta.app" XCODE_BETA]) :=
  release_skipped_when_prior_beta_gone
    ⟨ListingResult.ok ["15.0", "16.0 Beta 2 (Installed)", ""], [recA, recB]⟩
    ["/Applications/Xcode-15.0.app", "/Applications/Xcode-16.0-beta.app"]
    "16.0 Beta 2" "/Applications/Xcode-16.0-beta.app" "/Applications/Xcode-15.0.app"
    "/Applications/Xcode-14.3-beta.app" rfl rfl rfl rfl

/-- Claim C6: In a committed (non-dry-run) `update_links` run, the Beta pointer
is re-pointed only when the latest version is installed: if it is not, the run
fails with the `targetNotInstalled` assertion before creating any link; and
every successful committed run has re-pointed the Beta pointer at the
installed path of a latest version whose installed flag was true. -/
theorem beta_repoint_requires_installed :
    (∀ (env : Env) (st : LinkState) (lv : String),
        latest_xcode_version env.listing = .ok (lv, false) →
        update_links false env st = .error .targetNotInstalled) ∧
    (∀ (env : Env) (st st' : LinkState) (evs : List Ev),
        update_links false env st = .ok (st', evs) →
        ∃ lv lp, latest_xcode_version env.listing = .ok (lv, true) ∧
          path_for_xcode_version env.installed lv = some lp ∧
          st'.betaLink = some lp) := by
  constructor
  · intro env st lv h
    unfold update_links
    rw [h]
    rfl
  · intro env st st' evs h
    obtain ⟨lv, lp, h1, h2, h3, _, _⟩ := update_links_ok_shape h
    exact ⟨lv, lp, h1, h2, h3⟩

theorem beta_repoint_requires_installed_witness :
    update_links false ⟨ListingResult.ok ["16.0", ""], []⟩ ⟨none, none, []⟩ =
      .error .targetNotInstalled :=
  beta_repoint_requires_installed.1 ⟨ListingResult.ok ["16.0", ""], []⟩
    ⟨none, none, []⟩ "16.0" rfl

end XcodeUpdate

namespace XcodeUpdate

/-- Claim C2: `update_links` re-points the Release pointer by a three-way
decision on the Beta target resolved before the Beta pointer update
(`priorBeta`): (a) if a Release pointer exists, Release is re-pointed to
`priorBeta` only when `priorBeta` is release-classified, and (b)/(b') is left
untouched when `priorBeta` is prerelease-classified or absent; (c) if no
Release pointer exists but `priorBeta` exists on disk, Release is pointed at
`priorBeta` even without any classification requirement; (d)/(d') if neither a
Release pointer nor an on-disk `priorBeta` exists, Release is pointed at the
latest version's own path. -/
theorem update_links_release_three_way
    (env : Env) (disk : List String) (lv lp : String)
    (hlst : latest_xcode_version env.listing = .ok (lv, true))
    (hpath : path_for_xcode_version env.installed lv = some lp)
    (hlpb : (lp == symlinkDestination XCODE_BETA) = false) :
    (∀ rt cb, disk.contains cb = true →
       is_release_version env.installed cb = .ok true →
       (cb == symlinkDestination XCODE_RELEASE) = false →
       update_links false env ⟨some cb, some rt, disk⟩ =
         .ok (⟨some lp, some cb, disk⟩,
              [Ev.callMakeAlias lp XCODE_BETA, Ev.callMakeAlias cb XCODE_RELEASE])) ∧
    (∀ rt cb, disk.contains cb = true →
       is_release_version env.installed cb = .ok false →
       update_links false env ⟨some cb, some rt, disk⟩ =
         .ok (⟨some lp, some rt, disk⟩, [Ev.callMakeAlias lp XCODE_BETA])) ∧
    (∀ rt, update_links false env ⟨none, some rt, disk⟩ =
         .ok (⟨some lp, some rt, disk⟩, [Ev.callMakeAlias lp XCODE_BETA])) ∧
    (∀ cb, disk.contains cb = true →
       (cb == symlinkDestination XCODE_RELEASE) = false →
       update_links false env ⟨some cb, none, disk⟩ =
         .ok (⟨some lp, some cb, disk⟩,
              [Ev.callMakeAlias lp XCODE_BETA, Ev.callMakeAlias cb XCODE_RELEASE])) ∧
    ((lp == symlinkDestination XCODE_RELEASE) = false →
       update_links false env ⟨none, none, disk⟩ =
         .ok (⟨some lp, some lp, disk⟩,
              [Ev.callMakeAlias lp XCODE_BETA, Ev.callMakeAlias lp XCODE_RELEASE])) ∧
    (∀ cb, disk.contains cb = false →
       (lp == symlinkDestination XCODE_RELEASE) = false →
       update_links false env ⟨some cb, none, disk⟩ =
         .ok (⟨some lp, some lp, disk⟩,
              [Ev.callMakeAlias lp XCODE_BETA, Ev.callMakeAlias lp XCODE_RELEASE])) := by
  refine ⟨?_, ?_, ?_, ?_, ?_, ?_⟩
  · intro rt cb hdisk hcls hne
    unfold update_links
    rw [hlst]
    dsimp only
    rw [beta_stage_false_eval hpath hlpb]
    dsimp only
    rw [release_decision_repoint rfl hdisk hcls]
    dsimp only
    rw [apply_release_toPath_eval hne]
    rfl
  · intro rt cb hdisk hcls
    unfold update_links
    rw [hlst]
    dsimp only
    rw [beta_stage_false_eval hpath hlpb]
    dsimp only
    rw [release_decision_untouched rfl hdisk hcls]
    rfl
  · intro rt
    unfold update_links
    rw [hlst]
    dsimp only
    rw [beta_stage_false_eval hpath hlpb]
    dsimp only
    rw [release_decision_keep_nobeta rfl]
    rfl
  · intro cb hdisk hne
    unfold update_links
    rw [hlst]
    dsimp only
    rw [beta_stage_false_eval hpath hlpb]
    dsimp only
    rw [release_decision_fallback rfl hdisk]
    dsimp only
    rw [apply_release_toPath_eval hne]
    rfl
  · intro hne
    unfold update_links
    rw [hlst]
    dsimp only
    rw [beta_stage_false_eval hpath hlpb]
    dsimp only
    rw [release_decision_first_run rfl]
    dsimp only
    rw [apply_release_toLatest_eval hpath hne]
    rfl
  · intro cb hdisk hne
    unfold update_links
    rw [hlst]
    dsimp only
    rw [beta_stage_false_eval hpath hlpb]
    dsimp only
    rw [release_decision_fallback_gone rfl hdisk]
    dsimp only
    rw [apply_release_toLatest_eval hpath hne]
    rfl

theorem update_links_release_three_way_witness :
    update_links false ⟨ListingResult.ok ["15.0", "16.0 Beta 2 (Installed)", ""], [recA, recB]⟩
      ⟨some "/Applications/Xcode-15.0.app", some "/Applications/Xcode-14.app",
       ["/Applications/Xcode-15.0.app", "/Applications/Xcode-16.0-beta.app"]⟩ =
    .ok (⟨some "/Applications/Xcode-16.0-beta.app", some "/Applications/Xcode-15.0.app",
          ["/Applications/Xcode-15.0.app", "/Applications/Xcode-16.0-beta.app"]⟩,
         [Ev.callMakeAlias "/Applications/Xcode-16.0-beta.app" XCODE_BETA,
          Ev.callMakeAlias "/Applications/Xcode-15.0.app" XCODE_RELEASE]) :=
  (update_links_release_three_way
      ⟨ListingResult.ok ["15.0", "16.0 Beta 2 (Installed)", ""], [recA, recB]⟩
      ["/Applications/Xcode-15.0.app", "/Applications/Xcode-16.0-beta.app"]
      "16.0 Beta 2" "/Applications/Xcode-16.0-beta.app" rfl rfl rfl).1
    "/Applications/Xcode-14.app" "/Applications/Xcode-15.0.app" rfl rfl rfl

end XcodeUpdate

namespace XcodeUpdate

theorem listingOrder_getLast {lines : List String} {lv : String} {b : Bool}
    (h : latest_xcode_version (.ok lines) = .ok (lv, b)) :
    2 ≤ lines.length ∧ (listingOrder lines).getLast? = some lv := by
  unfold latest_xcode_version at h
  dsimp only at h
  by_cases h2 : 2 ≤ lines.length
  · refine ⟨h2, ?_⟩
    rw [dif_pos h2] at h
    have hlv : lv =
        (fun l => if containsStr l XCODES_INSTALLED_MAGIC_STRING
                  then removeStr l XCODES_INSTALLED_MAGIC_STRING else l)
          (lines.get ⟨lines.length - 2, by omega⟩) := by
      by_cases hc : containsStr (lines.get ⟨lines.length - 2, by omega⟩)
          XCODES_INSTALLED_MAGIC_STRING = true
      · rw [if_pos hc] at h
        cases h
        simp only [hc, if_true, ite_true]
      · rw [Bool.not_eq_true] at hc
        rw [if_neg (by rw [hc]; exact Bool.false_ne_true)] at h
        cases h
        simp only [hc, Bool.false_eq_true, if_false, ite_false]
    have hdl : lines.dropLast.getLast? = some (lines.get ⟨lines.length - 2, by omega⟩) := by
      rw [List.getLast?_eq_getElem?, List.length_dropLast, List.getElem?_dropLast]
      rw [if_pos (by omega)]
      have he : lines.length - 1 - 1 = lines.length - 2 := by omega
      rw [he, List.getElem?_eq_getElem (by omega)]
      rfl
    unfold listingOrder
    rw [List.getLast?_map, hdl, hlv]
    rfl
  · rw [dif_neg h2] at h
    simp at h

/-- Claim C4: For every input state, a completed committed `update_links` run
never produces a Release pointer target that is a newer version than the Beta
pointer target produced in the same run, under the oldest-first ordering
reported by the version source (`listingOrder`, with the latest version last):
whenever the final state has a Release target, both final targets resolve to
installed records and the Release record's position in the ordering is at most
the Beta record's position. -/
theorem release_never_newer_than_beta
    (env : Env) (st st' : LinkState) (evs : List Ev) (lines : List String)
    (hls : env.listing = .ok lines)
    (hrun : update_links false env st = .ok (st', evs))
    (hnd : (listingOrder lines).Nodup)
    (hinst : ∀ r ∈ env.installed, r.identifier ∈ listingOrder lines)
    (hbeta : ∀ cb, st.betaLink = some cb → ∃ r ∈ env.installed, r.path = cb)
    (hrel : ∀ rt, st.releaseLink = some rt → ∃ r ∈ env.installed, r.path = rt) :
    ∀ rp, st'.releaseLink = some rp →
      ∃ bp rr br, st'.betaLink = some bp ∧
        rr ∈ env.installed ∧ rr.path = rp ∧
        br ∈ env.installed ∧ br.path = bp ∧
        (listingOrder lines).indexOf rr.identifier ≤
          (listingOrder lines).indexOf br.identifier := by
  obtain ⟨lv, lp, hL, hP, hbl, hdisk, hrl⟩ := update_links_ok_shape hrun
  rw [hls] at hL
  obtain ⟨h2, hlast⟩ := listingOrder_getLast hL
  obtain ⟨br, hbrmem, hbrid, hbrpath⟩ :
      ∃ br, br ∈ env.installed ∧ br.identifier = lv ∧ br.path = lp := by
    unfold path_for_xcode_version at hP
    cases hf : env.installed.find? (fun r => r.identifier == lv) with
    | none => rw [hf] at hP; simp at hP
    | some r =>
      rw [hf] at hP
      simp at hP
      have hmem := List.mem_of_find?_eq_some hf
      have hid := List.find?_some hf
      exact ⟨r, hmem, by simpa using hid, hP⟩
  rw [List.getLast?_eq_getElem?] at hlast
  obtain ⟨hlt, hgeteq⟩ := List.getElem?_eq_some.mp hlast
  have hidxlv : (listingOrder lines).indexOf lv = (listingOrder lines).length - 1 := by
    rw [← hgeteq]
    exact List.indexOf_getElem hnd _ hlt
  have hmax : ∀ x ∈ listingOrder lines,
      (listingOrder lines).indexOf x ≤ (listingOrder lines).indexOf lv := by
    intro x hx
    have := List.indexOf_lt_length.mpr hx
    omega
  intro rp hrp
  rcases hrl with hsame | ⟨cb, hcb, hcb'⟩ | hlp2
  · rw [hrp] at hsame
    obtain ⟨rr, hrrmem, hrrpath⟩ := hrel rp hsame.symm
    refine ⟨lp, rr, br, hbl, hrrmem, hrrpath, hbrmem, hbrpath, ?_⟩
    rw [hbrid]
    exact hmax _ (hinst rr hrrmem)
  · rw [hrp] at hcb'
    obtain hcbeq : cb = rp := by injection hcb'.symm
    subst hcbeq
    obtain ⟨rr, hrrmem, hrrpath⟩ := hbeta cb hcb
    refine ⟨lp, rr, br, hbl, hrrmem, hrrpath, hbrmem, hbrpath, ?_⟩
    rw [hbrid]
    exact hmax _ (hinst rr hrrmem)
  · rw [hrp] at hlp2
    obtain hlpeq : lp = rp := by injection hlp2.symm
    subst hlpeq
    exact ⟨lp, br, br, hbl, hbrmem, hbrpath, hbrmem, hbrpath, le_refl _⟩

theorem release_never_newer_than_beta_witness :
    ∃ bp rr br,
      (⟨some "/Applications/Xcode-16.0-beta.app", some "/Applications/Xcode-15.0.app",
        ["/Applications/Xcode-15.0.app", "/Applications/Xcode-16.0-beta.app"]⟩ :
          LinkState).betaLink = some bp ∧
      rr ∈ [recA, recB] ∧ rr.path = "/Applications/Xcode-15.0.app" ∧
      br ∈ [recA, recB] ∧ br.path = bp ∧
      (listingOrder ["15.0", "16.0 Beta 2 (Installed)", ""]).indexOf rr.identifier ≤
        (listingOrder ["15.0", "16.0 Beta 2 (Installed)", ""]).indexOf br.identifier :=
  release_never_newer_than_beta
    ⟨ListingResult.ok ["15.0", "16.0 Beta 2 (Installed)", ""], [recA, recB]⟩
    ⟨some "/Applications/Xcode-15.0.app", some "/Applications/Xcode-15.0.app",
     ["/Applications/Xcode-15.0.app", "/Applications/Xcode-16.0-beta.app"]⟩
    ⟨some "/Applications/Xcode-16.0-beta.app", some "/Applications/Xcode-15.0.app",
     ["/Applications/Xcode-15.0.app", "/Applications/Xcode-16.0-beta.app"]⟩
    [Ev.callMakeAlias "/Applications/Xcode-16.0-beta.app" XCODE_BETA,
     Ev.callMakeAlias "/Applications/Xcode-15.0.app" XCODE_RELEASE]
    ["15.0", "16.0 Beta 2 (Installed)", ""] rfl rfl (by decide)
    (by decide)
    (fun cb h => by
      cases h
      exact ⟨recA, by simp, rfl⟩)
    (fun rt h => by
      cases h
      exact ⟨recA, by simp, rfl⟩)
    "/Applications/Xcode-15.0.app" rfl

end XcodeUpdate

namespace XcodeUpdate

/-! ## Lemmas about the phases of `main` -/

theorem installStep_err {w : World} {e : Err}
    (h : latest_xcode_version w.env.listing = .error e) :
    ∀ dry, installStep dry w = (.fail e, []) := by
  intro dry
  unfold installStep install_latest_xcode
  rw [h]

theorem installStep_nothing {w : World} {lv : String}
    (h : latest_xcode_version w.env.listing = .ok (lv, true)) :
    ∀ dry, installStep dry w = (.exitZero, []) := by
  intro dry
  unfold installStep install_latest_xcode
  rw [h]
  rfl

theorem relinkStep_err {w : World} {e : Err}
    (h : latest_xcode_version w.env.listing = .error e) :
    ∀ dry, relinkStep dry w = (.fail e, [], w.st) := by
  intro dry
  unfold relinkStep update_links
  rw [h]

theorem installStep_evs_dry (w : World) : (installStep true w).2 = [] := by
  unfold installStep install_latest_xcode
  cases latest_xcode_version w.env.listing with
  | error e => rfl
  | ok p =>
    obtain ⟨lv, i⟩ := p
    cases i <;> rfl

theorem delete_xcode_dry_evs {env : Env} {st : LinkState} {sel : Option String}
    {evs : List Ev} (h : delete_xcode true env st = .ok (sel, evs)) : evs = [] := by
  unfold delete_xcode at h
  cases hb : st.betaLink with
  | none => rw [hb] at h; cases h; rfl
  | some cb =>
    rw [hb] at h
    dsimp only at h
    cases hcl : is_release_version env.installed cb with
    | error e => rw [hcl] at h; simp at h
    | ok b =>
      rw [hcl] at h
      dsimp only at h
      by_cases hs : pyTruthy (oldest_xcode_version b env.installed) = true
      · rw [if_pos hs] at h; cases h; rfl
      · rw [if_neg hs] at h; cases h; rfl

theorem deleteStep_evs_dry (w : World) : (deleteStep true w).2 = [] := by
  unfold deleteStep
  cases hd : delete_xcode true w.env w.st with
  | error e => rfl
  | ok q =>
    obtain ⟨sel, evs⟩ := q
    simpa using delete_xcode_dry_evs hd

theorem relinkStep_evs_dry (w : World) : (relinkStep true w).2.1 = [] := by
  unfold relinkStep
  cases hu : update_links true w.env w.st with
  | error e => rfl
  | ok q =>
    obtain ⟨st1, evs⟩ := q
    simpa using (update_links_dry_ok hu).2

theorem relinkStep_false_events (w : World) :
    ∀ x ∈ (relinkStep false w).2.1, ∃ s n, x = Ev.callMakeAlias s n := by
  unfold relinkStep
  cases hu : update_links false w.env w.st with
  | error e => intro x hx; simp at hx
  | ok q =>
    obtain ⟨st1, evs⟩ := q
    intro x hx
    exact update_links_false_events hu x (by simpa using hx)

theorem previewSteps_evs (args : Args) (w : World) :
    ∀ s ∈ previewSteps args w, s.2 = [] := by
  intro s hs
  unfold previewSteps at hs
  rcases List.mem_append.mp hs with hs1 | hs3
  · rcases List.mem_append.mp hs1 with hsA | hsB
    · by_cases hc : (args.interactive && !args.links_only) = true
      · rw [if_pos hc] at hsA
        rw [List.mem_singleton.mp hsA]
        exact installStep_evs_dry w
      · rw [if_neg hc] at hsA
        simp at hsA
    · by_cases hc : (args.interactive && args.delete && !args.links_only) = true
      · rw [if_pos hc] at hsB
        rw [List.mem_singleton.mp hsB]
        exact deleteStep_evs_dry w
      · rw [if_neg hc] at hsB
        simp at hsB
  · by_cases hc : args.interactive = true
    · rw [if_pos hc] at hs3
      rw [List.mem_singleton.mp hs3]
      exact relinkStep_evs_dry w
    · rw [if_neg hc] at hs3
      simp at hs3

theorem firstHalt_evs_nil {l : List (StepRes × List Ev)} (h : ∀ s ∈ l, s.2 = []) :
    (firstHalt l).1 = [] := by
  induction l with
  | nil => rfl
  | cons s rest ih =>
    obtain ⟨res, evs⟩ := s
    have h1 : evs = [] := h _ (List.mem_cons_self _ _)
    subst h1
    cases res with
    | proceed =>
      have h2 := ih (fun x hx => h x (List.mem_cons_of_mem _ hx))
      rcases hfr : firstHalt rest with ⟨evs2, o⟩
      rw [hfr] at h2
      simp only [firstHalt, hfr]
      simpa using h2
    | exitZero => rfl
    | fail e => rfl

theorem runMain_listing_error {w : World} {e : Err}
    (h : latest_xcode_version w.env.listing = .error e)
    (args : Args) (confirm : Bool) (instE uninstE : String → World → World) :
    runMain args confirm w instE uninstE = ([], .failed e, w.st) := by
  obtain ⟨i, d, l⟩ := args
  have hi : ∀ dry, install_latest_xcode dry w.env = .error e := by
    intro dry
    unfold install_latest_xcode
    rw [h]
  have hu : ∀ dry, update_links dry w.env w.st = .error e := by
    intro dry
    unfold update_links
    rw [h]
  cases i <;> cases d <;> cases l <;>
    simp [runMain, previewSteps, firstHalt, commitPhases, installStep, deleteStep,
      relinkStep, hi, hu]

theorem runMain_nothing_to_do {w : World} {lv : String}
    (h : latest_xcode_version w.env.listing = .ok (lv, true))
    {args : Args} (hl : args.links_only = false)
    (confirm : Bool) (instE uninstE : String → World → World) :
    runMain args confirm w instE uninstE = ([], .exitedZero, w.st) := by
  obtain ⟨i, d, l⟩ := args
  have hll : l = false := hl
  subst hll
  have hi : ∀ dry, install_latest_xcode dry w.env = .ok (.nothingToDo, []) := by
    intro dry
    unfold install_latest_xcode
    rw [h]
    rfl
  cases i <;> cases d <;>
    simp [runMain, previewSteps, firstHalt, commitPhases, installStep, hi]

end XcodeUpdate

namespace XcodeUpdate

theorem commitPhases_links_only_events (i d : Bool) (w : World)
    (instE uninstE : String → World → World) :
    ∀ x ∈ (commitPhases ⟨i, d, true⟩ w instE uninstE).1,
      ∃ s n, x = Ev.callMakeAlias s n := by
  intro x hx
  unfold commitPhases at hx
  rw [if_pos rfl] at hx
  dsimp only at hx
  simp only [Bool.not_true, Bool.and_false] at hx
  rw [if_neg Bool.false_ne_true] at hx
  dsimp only at hx
  simp only [List.foldl_nil] at hx
  rcases hr : relinkStep false w with ⟨r3, e3, st3⟩
  have he3 : ∀ y ∈ e3, ∃ s n, y = Ev.callMakeAlias s n := by
    have h2 := relinkStep_false_events w
    rw [hr] at h2
    simpa using h2
  rw [hr] at hx
  cases r3 <;> dsimp only at hx <;>
    exact he3 x (by simpa using hx)

/-- Ancillary world used by concrete witnesses: the latest listed version
("16.0 Beta 2") is already installed, while both pointers still reference the
old release build. -/
def wC3 : World :=
  ⟨⟨.ok ["15.0", "16.0 Beta 2 (Installed)", ""], [recA, recB]⟩,
   ⟨some "/Applications/Xcode-15.0.app", some "/Applications/Xcode-15.0.app",
    ["/Applications/Xcode-15.0.app", "/Applications/Xcode-16.0-beta.app"]⟩⟩

/-- Claim C3 counterexample: with the latest version already installed, a
(non-interactive, full) run terminates during the Install phase with exit
code 0 and the Relink phase never executes — the final link state is the
unchanged initial one even though applying `update_links` would have changed
it, contradicting "the run still recomputes and applies the Relink phase". -/
theorem install_noop_skips_relink_counterexample :
    runMain ⟨false, true, false⟩ true wC3 (fun _ w => w) (fun _ w => w) =
      ([], .exitedZero, wC3.st) ∧
    update_links false wC3.env wC3.st =
      .ok (⟨some "/Applications/Xcode-16.0-beta.app", some "/Applications/Xcode-15.0.app",
            ["/Applications/Xcode-15.0.app", "/Applications/Xcode-16.0-beta.app"]⟩,
           [Ev.callMakeAlias "/Applications/Xcode-16.0-beta.app" XCODE_BETA,
            Ev.callMakeAlias "/Applications/Xcode-15.0.app" XCODE_RELEASE]) ∧
    (⟨some "/Applications/Xcode-16.0-beta.app", some "/Applications/Xcode-15.0.app",
      ["/Applications/Xcode-15.0.app", "/Applications/Xcode-16.0-beta.app"]⟩ : LinkState) ≠
      wC3.st := by
  refine ⟨rfl, rfl, by decide⟩

/-- Claim C3 (amended): When the latest available version is already installed,
the Install phase reports the "nothing to do" terminal state without treating
it as an error (the process terminates via `exit()` with code 0), and — in
any run that does not skip the Install phase — the whole run ends there: the
Relink phase is not executed and both pointers are left unchanged. -/
theorem install_noop_terminates_run
    (envVar : Option String) (rwAccess : String → Bool)
    (args : Args) (confirm : Bool) (w : World)
    (instE uninstE : String → World → World) (lv : String)
    (hperm : rwAccess (xcodes_directory envVar) = true)
    (h : latest_xcode_version w.env.listing = .ok (lv, true))
    (hl : args.links_only = false) :
    mainRun envVar rwAccess args confirm w instE uninstE = ([], .exitedZero, w.st) := by
  unfold mainRun verify_permissions
  rw [hperm]
  exact runMain_nothing_to_do h hl confirm instE uninstE

theorem install_noop_terminates_run_witness :
    mainRun none (fun _ => true) ⟨true, true, false⟩ true wC3
      (fun _ w => w) (fun _ w => w) = ([], .exitedZero, wC3.st) :=
  install_noop_terminates_run none (fun _ => true) ⟨true, true, false⟩ true wC3
    (fun _ w => w) (fun _ w => w) "16.0 Beta 2" rfl rfl rfl

/-- Claim C7: `latest_xcode_version` fails with the tool-unavailable error when
the external listing call errors or exceeds the bounded 10-second wait
(`timeout=10`), and fails with the malformed-output error when no version can
be parsed from the listing (fewer than two newline-split parts, so the `[-2]`
index does not exist); in both cases the failure is fatal and occurs before
any mutation: the whole run emits no collaborator call and leaves the link
state unchanged. -/
theorem latest_version_failure_modes :
    latest_xcode_version .timeout = .error .toolUnavailable ∧
    latest_xcode_version .callError = .error .toolUnavailable ∧
    XCODES_LIST_TIMEOUT_SECONDS = 10 ∧
    (∀ lines : List String, lines.length < 2 →
        latest_xcode_version (.ok lines) = .error .malformedOutput) ∧
    (∀ (envVar : Option String) (rwAccess : String → Bool) (args : Args)
        (confirm : Bool) (w : World) (instE uninstE : String → World → World) (e : Err),
        rwAccess (xcodes_directory envVar) = true →
        latest_xcode_version w.env.listing = .error e →
        mainRun envVar rwAccess args confirm w instE uninstE = ([], .failed e, w.st)) := by
  refine ⟨rfl, rfl, rfl, ?_, ?_⟩
  · intro lines hlen
    unfold latest_xcode_version
    dsimp only
    rw [dif_neg (by omega)]
  · intro envVar rwAccess args confirm w iE uE e hperm h
    unfold mainRun verify_permissions
    rw [hperm]
    exact runMain_listing_error h args confirm iE uE

theorem latest_version_failure_modes_witness :
    latest_xcode_version (.ok [""]) = .error .malformedOutput ∧
    mainRun none (fun _ => true) ⟨true, true, false⟩ true ⟨⟨.timeout, []⟩, ⟨none, none, []⟩⟩
      (fun _ w => w) (fun _ w => w) =
      ([], .failed .toolUnavailable, (⟨none, none, []⟩ : LinkState)) :=
  ⟨latest_version_failure_modes.2.2.2.1 [""] (by decide),
   latest_version_failure_modes.2.2.2.2 none (fun _ => true) ⟨true, true, false⟩ true
     ⟨⟨.timeout, []⟩, ⟨none, none, []⟩⟩ (fun _ w => w) (fun _ w => w)
     .toolUnavailable rfl rfl⟩

/-- Claim C9: For every run invoked with the --links-only flag, the Install and
Delete collaborator calls (install/uninstall of a version) are never invoked:
every collaborator call emitted by the run is an alias/symlink creation of the
Relink phase. -/
theorem links_only_never_installs_or_deletes
    (envVar : Option String) (rwAccess : String → Bool) (args : Args)
    (hl : args.links_only = true) (confirm : Bool) (w : World)
    (instE uninstE : String → World → World) :
    ∀ ev ∈ (mainRun envVar rwAccess args confirm w instE uninstE).1,
      ∃ s n, ev = Ev.callMakeAlias s n := by
  obtain ⟨i, d, l⟩ := args
  have hll : l = true := hl
  subst hll
  intro ev hev
  unfold mainRun at hev
  cases hv : verify_permissions envVar rwAccess with
  | error e => rw [hv] at hev; simp at hev
  | ok u =>
    rw [hv] at hev
    dsimp only at hev
    unfold runMain at hev
    rcases hfh : firstHalt (previewSteps ⟨i, d, true⟩ w) with ⟨pEvs, o⟩
    have hpE : pEvs = [] := by
      have h2 := firstHalt_evs_nil (previewSteps_evs ⟨i, d, true⟩ w)
      rw [hfh] at h2
      exact h2
    subst hpE
    rw [hfh] at hev
    cases o with
    | some o2 => dsimp only at hev; simp at hev
    | none =>
      dsimp only at hev
      by_cases hc : (i && !confirm) = true
      · rw [if_pos hc] at hev
        simp at hev
      · rw [if_neg hc] at hev
        rcases hcp : commitPhases ⟨i, d, true⟩ w instE uninstE with ⟨cEvs, o2, st2⟩
        rw [hcp] at hev
        dsimp only at hev
        rw [List.nil_append] at hev
        have h3 := commitPhases_links_only_events i d w instE uninstE
        rw [hcp] at h3
        exact h3 ev (by simpa using hev)

theorem links_only_never_installs_or_deletes_witness :
    ∃ s n, Ev.callMakeAlias "/Applications/Xcode-16.0-beta.app" XCODE_BETA =
      Ev.callMakeAlias s n :=
  links_only_never_installs_or_deletes none (fun _ => true) ⟨false, true, true⟩ rfl
    true wC3 (fun _ w => w) (fun _ w => w)
    (Ev.callMakeAlias "/Applications/Xcode-16.0-beta.app" XCODE_BETA) (by decide)

/-- Claim C8 counterexample: the environment variable override reaches only the
permission check — `make_alias` always creates the symlink inside the fixed
`/Applications` directory — so with the variable set to `/opt/xcodes` the
permission check and the symlink creation operate on different directories,
refuting the claim that both operate on the overridden one. -/
theorem env_override_counterexample :
    xcodes_directory (some "/opt/xcodes") = "/opt/xcodes" ∧
    symlinkDestination XCODE_BETA = XCODE_SYMLINK_DIRECTORY ++ "/" ++ XCODE_BETA ∧
    XCODE_SYMLINK_DIRECTORY ≠ xcodes_directory (some "/opt/xcodes") :=
  ⟨rfl, rfl, by decide⟩

/-- Claim C8 (amended): the optional environment variable overrides the base
directory used by the permission check (default `/Applications`; an empty
value counts as unset), and the run fails fast with a permission error —
before any phase emits a collaborator call, with the link state unchanged —
when the invoking user lacks read+write access to that directory; the
alias/symlink creation is unaffected by the variable and always targets the
fixed `/Applications` directory. -/
theorem env_override_permission_check
    (envVar : Option String) (rwAccess : String → Bool) :
    (∀ dv, envVar = some dv → dv ≠ "" → xcodes_directory envVar = dv) ∧
    ((envVar = none ∨ envVar = some "") → xcodes_directory envVar = "/Applications") ∧
    (rwAccess (xcodes_directory envVar) = false →
       verify_permissions envVar rwAccess = .error .permissionDenied ∧
       ∀ (args : Args) (confirm : Bool) (w : World)
         (iE uE : String → World → World),
         mainRun envVar rwAccess args confirm w iE uE =
           ([], .failed .permissionDenied, w.st)) ∧
    (rwAccess (xcodes_directory envVar) = true →
       verify_permissions envVar rwAccess = .ok ()) ∧
    (∀ name, symlinkDestination name = XCODE_SYMLINK_DIRECTORY ++ "/" ++ name) ∧
    XCODE_SYMLINK_DIRECTORY = "/Applications" := by
  refine ⟨?_, ?_, ?_, ?_, fun name => rfl, rfl⟩
  · intro dv he hne
    subst he
    have hie : dv.isEmpty = false := by
      rw [← Bool.not_eq_true]
      intro hc
      exact hne ((String.isEmpty_iff dv).mp hc)
    unfold xcodes_directory
    dsimp only
    rw [hie]
    rfl
  · intro he
    rcases he with he | he <;> subst he <;> rfl
  · intro hf
    have hv : verify_permissions envVar rwAccess = .error .permissionDenied := by
      unfold verify_permissions
      rw [hf]
      rfl
    refine ⟨hv, ?_⟩
    intro args confirm w iE uE
    unfold mainRun
    rw [hv]
  · intro ht
    unfold verify_permissions
    rw [ht]
    rfl

theorem env_override_permission_check_witness :
    xcodes_directory (some "/opt/xcodes") = "/opt/xcodes" ∧
    verify_permissions (some "/opt/xcodes") (fun _ => false) =
      .error .permissionDenied :=
  ⟨(env_override_permission_check (some "/opt/xcodes") (fun _ => false)).1
     "/opt/xcodes" rfl (by decide),
   ((env_override_permission_check (some "/opt/xcodes") (fun _ => false)).2.2.1
     rfl).1⟩

end XcodeUpdate
